import Mathlib

/-! Verification of the rslox expression interpreter (scanner, parser,
evaluator).

Shallow embedding conventions:
* Rust `f64` is modelled as `ℚ` with exact arithmetic; the number lexemes the
  scanner produces are plain decimal literals, and all arithmetic the claims
  exercise is exact at 64-bit precision, so the idealisation is faithful there.
* The scanner (`TokenStream` in `scanner/mod.rs`) is an iterator; it is
  embedded as a function producing the list of its non-`Ignore` items.
  Termination is by a fuel argument; since every iterator step consumes at
  least one input character, fuel `length + 1` (supplied by `scanTokens`)
  always suffices, and running out of fuel is marked by a `panicked` item.
* Rust panics (`todo!`, `expect`, unreachable arms) are embedded as explicit
  `panicked` outcomes, distinct from user-facing errors.
-/

/-- Lexical categories, from `scanner/token.rs` (`TokenType`). Keyword
categories carry a `kw` prefix because several Rust variant names are Lean
keywords. -/
inductive TokenType where
  | leftParen | rightParen | leftBrace | rightBrace
  | comma | dot | minus | plus | semicolon | slash | star
  | bang | bangEqual | equal | equalEqual
  | greater | greaterEqual | less | lessEqual
  | identifier | string | number
  | kwAnd | kwClass | kwElse | kwFalse | kwFun | kwFor | kwIf | kwNil
  | kwOr | kwPrint | kwReturn | kwSuper | kwThis | kwTrue | kwVar | kwWhile
  | eof
deriving DecidableEq

/-- Token-attached literal payload, from `scanner/token.rs` (`Literal`):
a parsed number or the raw text of a string. -/
inductive TokLiteral where
  | number (n : ℚ)
  | str (s : String)
deriving DecidableEq

/-- A lexical token, from `scanner/token.rs` (`Token`). -/
structure Token where
  typ : TokenType
  lexeme : String
  literal : Option TokLiteral
  line : Nat
deriving DecidableEq

/-- `Token::new_eof`: the terminal end-marker token. -/
def Token.newEof (line : Nat) : Token :=
  { typ := .eof, lexeme := "", literal := none, line := line }

/-- A lexical or syntax error, from `error.rs` (`Report`). -/
structure Report where
  line : Nat
  location : Option String
  message : String
deriving DecidableEq

/-- `Report::error` (used by the scanner): an error with no location
annotation. -/
def Report.atLine (line : Nat) (message : String) : Report :=
  { line := line, location := none, message := message }

/-- `Report::error_at_token`: annotates with " at end" for the end-marker and
" at '<lexeme>'" otherwise, carrying the token's line. -/
def Report.errorAtToken (t : Token) (message : String) : Report :=
  { line := t.line
    location := some (if t.typ = .eof then " at end"
                      else " at '" ++ t.lexeme ++ "'")
    message := message }

/-- One item of the scanner's output stream, from `scanner/mod.rs`
(`ScanResult`); `Ignore` items are dropped, and `panicked` marks a Rust
panic aborting the scan. -/
inductive ScanItem where
  | tok (t : Token)
  | err (r : Report)
  | panicked (msg : String)
deriving DecidableEq

/-- Whether a scan item is the end-marker token. -/
def ScanItem.isEof : ScanItem → Bool
  | .tok t => t.typ == .eof
  | _ => false

/-- Whether a scan item records a panic (an embedding marker, not a real
item of the Rust iterator, which panics instead). -/
def ScanItem.isPanicked : ScanItem → Bool
  | .panicked _ => true
  | _ => false

/-- The message of a panic marker (empty for ordinary items). -/
def ScanItem.panicMessage : ScanItem → String
  | .panicked m => m
  | _ => ""

/-- The fixed keyword table `KEYWORDS` from `scanner/mod.rs`. -/
def keywordList : List (String × TokenType) :=
  [("and", .kwAnd), ("class", .kwClass), ("else", .kwElse),
   ("false", .kwFalse), ("for", .kwFor), ("fun", .kwFun), ("if", .kwIf),
   ("nil", .kwNil), ("or", .kwOr), ("print", .kwPrint),
   ("return", .kwReturn), ("super", .kwSuper), ("this", .kwThis),
   ("true", .kwTrue), ("var", .kwVar), ("while", .kwWhile)]

/-- `KEYWORDS.get(..).unwrap_or(Identifier)`: keyword table lookup with the
generic identifier as default. -/
def keywordTypeFor (s : String) : TokenType :=
  (keywordList.lookup s).getD .identifier

/-- Numeric value of a list of ASCII digits, most significant first. -/
def digitsToNat (ds : List Char) : Nat :=
  ds.foldl (fun a c => 10 * a + (c.toNat - 48)) 0

/-- Value of a decimal literal `ip . fp e ex` as an exact rational, the
idealisation of the `f64` the Rust code obtains. The integer-only case is
kept free of rational arithmetic so that it reduces definitionally. -/
def decimalValue (ip fp : List Char) (ex : Nat) : ℚ :=
  if fp.isEmpty ∧ ex = 0 then (digitsToNat ip : ℚ)
  else (digitsToNat (ip ++ fp) : ℚ) * 10 ^ ex / 10 ^ fp.length

/-- Model of Rust `str::parse::<f64>` restricted to the unsigned lexemes the
scanner can build (`digit+ ('.' alnum*)?`): accepts
`digit+ ('.' digit*)? ((e|E) digit+)?` per the standard library's float
grammar (a sign inside the exponent cannot occur in these lexemes), and
returns `none` where Rust returns `Err`. -/
def parseDouble (cs : List Char) : Option ℚ :=
  let ip := cs.takeWhile Char.isDigit
  let r1 := cs.dropWhile Char.isDigit
  if ip.isEmpty then none
  else
    let frac : List Char × List Char :=
      match r1 with
      | '.' :: rest => (rest.takeWhile Char.isDigit, rest.dropWhile Char.isDigit)
      | _ => ([], r1)
    match frac with
    | (fp, r2) =>
      match r2 with
      | [] => some (decimalValue ip fp 0)
      | e :: rest =>
        if (e = 'e' ∨ e = 'E') ∧ ¬rest.isEmpty ∧ rest.all Char.isDigit
        then some (decimalValue ip fp (digitsToNat rest))
        else none

/-- `TokenStream::number`: after the leading digit, consume digits; consume a
`.` only when the character after it is a digit, and then — as the Rust code
does — consume ASCII alphanumerics (not only digits); finally parse the
lexeme as a double, panicking (`expect`) if that fails. Returns the produced
item and the remaining characters. -/
def scanNumber (lead : Char) (cs : List Char) (line : Nat) :
    ScanItem × List Char :=
  let ip := cs.takeWhile Char.isDigit
  let r1 := cs.dropWhile Char.isDigit
  let lexRest : List Char × List Char :=
    match r1 with
    | '.' :: d :: ds =>
      if d.isDigit then
        (lead :: ip ++ '.' :: (d :: ds).takeWhile Char.isAlphanum,
         (d :: ds).dropWhile Char.isAlphanum)
      else (lead :: ip, r1)
    | _ => (lead :: ip, r1)
  match lexRest with
  | (lex, rest) =>
    match parseDouble lex with
    | some q =>
      (.tok { typ := .number, lexeme := String.mk lex,
              literal := some (.number q), line := line }, rest)
    | none => (.panicked "Expected a valid double-precision float", rest)

/-- `TokenStream::string`: consume up to the next `"`, counting embedded
newlines into the line counter; an unterminated string yields the
"Unterminated string." error (and no token) at the line where scanning
stopped, otherwise the token's literal is the text strictly between the
quotes. Returns the item, the remaining characters and the updated line. -/
def scanString (cs : List Char) (line : Nat) :
    ScanItem × List Char × Nat :=
  let body := cs.takeWhile (· != '"')
  let rest := cs.dropWhile (· != '"')
  let line' := line + body.count '\n'
  match rest with
  | [] => (.err (Report.atLine line' "Unterminated string."), [], line')
  | _ :: rest' =>
    (.tok { typ := .string, lexeme := String.mk ('"' :: body ++ ['"']),
            literal := some (.str (String.mk body)), line := line' },
     rest', line')

/-- `TokenStream::identifier`: consume `_`/alphanumerics after the leading
character and classify the lexeme against the keyword table. -/
def scanIdentifier (lead : Char) (cs : List Char) (line : Nat) :
    ScanItem × List Char :=
  let more := cs.takeWhile (fun c => c = '_' || c.isAlphanum)
  let rest := cs.dropWhile (fun c => c = '_' || c.isAlphanum)
  let lex := String.mk (lead :: more)
  (.tok { typ := keywordTypeFor lex, lexeme := lex, literal := none,
          line := line }, rest)

/-- Builds a token with no literal, as `TokenStream::make_token`. -/
def mkToken (typ : TokenType) (lexeme : String) (line : Nat) : Token :=
  { typ := typ, lexeme := lexeme, literal := none, line := line }

/-- The result of one `next()` call of the scanner's iterator on a
non-empty input: an item to yield, an `Ignore` step yielding nothing, or a
panic aborting the process; each carries the remaining characters and the
updated line counter. -/
inductive StepRes where
  | emit (item : ScanItem) (rest : List Char) (line' : Nat)
  | skip (rest : List Char) (line' : Nat)
  | abort (msg : String)
deriving DecidableEq

/-- One step of `impl Iterator for TokenStream::next` on input `c :: cs'`:
dispatches on `c` exactly as the Rust `match` does; the one-character
lookahead `next_match`/`next_if_eq` is the test on the head of the
remaining characters. -/
def scanStep (c : Char) (cs' : List Char) (line : Nat) : StepRes :=
  if c = '(' then .emit (.tok (mkToken .leftParen "(" line)) cs' line
  else if c = ')' then .emit (.tok (mkToken .rightParen ")" line)) cs' line
  else if c = '{' then .emit (.tok (mkToken .leftBrace "\x7b" line)) cs' line
  else if c = '}' then .emit (.tok (mkToken .rightBrace "\x7d" line)) cs' line
  else if c = '*' then .emit (.tok (mkToken .star "*" line)) cs' line
  else if c = '.' then .emit (.tok (mkToken .dot "." line)) cs' line
  else if c = ',' then .emit (.tok (mkToken .comma "," line)) cs' line
  else if c = '+' then .emit (.tok (mkToken .plus "+" line)) cs' line
  else if c = '-' then .emit (.tok (mkToken .minus "-" line)) cs' line
  else if c = ';' then .emit (.tok (mkToken .semicolon ";" line)) cs' line
  else if c = '=' then
    if cs'.head? = some '=' then .emit (.tok (mkToken .equalEqual "==" line)) cs'.tail line
    else .emit (.tok (mkToken .equal "=" line)) cs' line
  else if c = '!' then
    if cs'.head? = some '=' then .emit (.tok (mkToken .bangEqual "!=" line)) cs'.tail line
    else .emit (.tok (mkToken .bang "!" line)) cs' line
  else if c = '<' then
    if cs'.head? = some '=' then .emit (.tok (mkToken .lessEqual "<=" line)) cs'.tail line
    else .emit (.tok (mkToken .less "<" line)) cs' line
  else if c = '>' then
    if cs'.head? = some '=' then .emit (.tok (mkToken .greaterEqual ">=" line)) cs'.tail line
    else .emit (.tok (mkToken .greater ">" line)) cs' line
  else if c = '/' then
    if cs'.head? = some '/' then .skip (cs'.tail.dropWhile (· != '\n')) line
    else .emit (.tok (mkToken .slash "/" line)) cs' line
  else if c = ' ' ∨ c = '\t' ∨ c = '\r' then .skip cs' line
  else if c = '\n' then .skip cs' (line + 1)
  else if c = '"' then
    .emit (scanString cs' line).1 (scanString cs' line).2.1 (scanString cs' line).2.2
  else if c.isDigit then
    if (scanNumber c cs' line).1.isPanicked then
      .abort (scanNumber c cs' line).1.panicMessage
    else .emit (scanNumber c cs' line).1 (scanNumber c cs' line).2 line
  else if c = '_' ∨ c.isAlpha then
    .emit (scanIdentifier c cs' line).1 (scanIdentifier c cs' line).2 line
  else
    .emit (.err (Report.atLine line ("Unexpected character: " ++ String.singleton c)))
      cs' line

/-- The scanner's iterator, run to exhaustion and collected: `Ignore`
results produce no item, lexical errors do not stop the scan, exhausting the
input emits the single end-marker token, and a panic aborts the run. The
fuel argument only serves termination; every step consumes at least one
character, so `length + 1` fuel never runs out. -/
def scanChars : Nat → List Char → Nat → List ScanItem
  | 0, _, _ => [.panicked "fuel exhausted"]
  | fuel + 1, cs, line =>
    match cs with
    | [] => [.tok (Token.newEof line)]
    | c :: cs' =>
      match scanStep c cs' line with
      | .emit item rest line' => item :: scanChars fuel rest line'
      | .skip rest line' => scanChars fuel rest line'
      | .abort m => [.panicked m]

/-- `Scanner::scan_tokens` followed by draining the iterator: the full item
sequence for a source text, starting at line 1. -/
def scanTokens (s : String) : List ScanItem :=
  scanChars (s.toList.length + 1) s.toList 1

/-- The token list the parser receives (`main.rs::tokenize` filters errors
out and keeps the tokens, end-marker included). -/
def okTokens (s : String) : List Token :=
  (scanTokens s).filterMap fun i =>
    match i with
    | .tok t => some t
    | _ => none

/-- Runtime values, from `lib.rs` (`Value`). Rust's derived `PartialEq` is
structural with numeric payload equality, which the derived `DecidableEq`
mirrors. -/
inductive Value where
  | number (n : ℚ)
  | string (s : String)
  | boolean (b : Bool)
  | nil
deriving DecidableEq

/-- Truthiness (`Value::is_truthy` in `interpreter/mod.rs`): `nil` is false,
booleans keep their value, everything else is true. -/
def Value.isTruthy : Value → Bool
  | .nil => false
  | .boolean b => b
  | _ => true

/-- Decimal digit characters of `n`, via `Nat.repr`. -/
def natDecimal (n : Nat) : String := Nat.repr n

/-- Decimal rendering of an integer, sign included. -/
def intDecimal (i : Int) : String :=
  if i < 0 then "-" ++ natDecimal i.natAbs else natDecimal i.natAbs

/-- Decimal expansion digits of the proper fraction `num / den`, stopping at
the exact expansion's end (or after `fuel` digits; 1100 digits cover every
64-bit float, so the fuel is never the binding constraint for values the
program manipulates). -/
def fracDecimal (num den : Nat) : Nat → List Char
  | 0 => []
  | fuel + 1 =>
    if num = 0 then []
    else
      Char.ofNat (48 + (num * 10) / den) :: fracDecimal ((num * 10) % den) den fuel

/-- Model of Rust's `Display` for a (finite) `f64`: integral values render
with no decimal point, other values as sign, integer part, `.`, and the
fraction's decimal digits. -/
def ratDisplay (q : ℚ) : String :=
  if q.den = 1 then intDecimal q.num
  else
    (if q < 0 then "-" else "") ++ natDecimal (q.num.natAbs / q.den) ++ "." ++
      String.mk (fracDecimal (q.num.natAbs % q.den) q.den 1100)

/-- The canonical final-output rendering of a `Value`, from `lib.rs`
(`impl Display for Value`): numbers use the plain float `Display`, strings
their raw text, booleans `true`/`false`, nil `"nil"`. -/
def Value.display : Value → String
  | .number n => ratDisplay n
  | .string s => s
  | .boolean b => if b then "true" else "false"
  | .nil => "nil"

/-- The token-literal rendering, from `scanner/token.rs`
(`impl Display for Literal`): a number whose fractional part is zero is
formatted with `{:.1}`, i.e. one fractional digit, giving a trailing ".0". -/
def TokLiteral.display : TokLiteral → String
  | .number n => if n.den = 1 then intDecimal n.num ++ ".0" else ratDisplay n
  | .str s => s

/-- Expression trees, from `parser/expr.rs` (`AstNode`); literal nodes carry
the runtime `Value` the parser stored. -/
inductive AstNode where
  | literal (v : Value)
  | grouping (e : AstNode)
  | unary (op : Token) (right : AstNode)
  | binary (left : AstNode) (op : Token) (right : AstNode)
deriving DecidableEq

/-- A parser failure: a syntax-error `Report`, or a panic marker for the
`expect` calls the Rust parser can hit (and for fuel exhaustion, an
embedding artifact that enough fuel never reaches). -/
inductive ParseErr where
  | report (r : Report)
  | panicked (msg : String)
deriving DecidableEq

instance {ε α : Type} [DecidableEq ε] [DecidableEq α] :
    DecidableEq (Except ε α) := fun x y =>
  match x, y with
  | .ok a, .ok b =>
    if h : a = b then isTrue (by rw [h]) else isFalse (by simp [h])
  | .error a, .error b =>
    if h : a = b then isTrue (by rw [h]) else isFalse (by simp [h])
  | .ok _, .error _ => isFalse (by simp)
  | .error _, .ok _ => isFalse (by simp)

/-- Whether the parser is at the end of input (`Parser::is_at_end`): no
tokens left, or the current token is the end-marker. -/
def atEnd : List Token → Bool
  | [] => true
  | t :: _ => t.typ = .eof

/-- `Parser::next_if`: consume the next token when it has the given type
(never consuming the end-marker). Returns the consumed token and the
remaining list. -/
def nextIf (tt : TokenType) (ts : List Token) : Option Token × List Token :=
  if atEnd ts then (none, ts)
  else
    match ts with
    | t :: rest => if t.typ = tt then (some t, rest) else (none, ts)
    | [] => (none, ts)

/-- `Parser::next_match`: try `next_if` on each given type in order. -/
def nextMatch (tts : List TokenType) (ts : List Token) :
    Option Token × List Token :=
  match tts with
  | [] => (none, ts)
  | tt :: tts' =>
    match nextIf tt ts with
    | (some t, ts') => (some t, ts')
    | (none, _) => nextMatch tts' ts

/-- `Parser::error`: build a `Report` from the current token (panicking, as
the Rust `expect` does, when no token at all remains). -/
def parserError (ts : List Token) (msg : String) : ParseErr :=
  match ts with
  | [] => .panicked "expected a token"
  | t :: _ => .report (Report.errorAtToken t msg)

/-- `Parser::next_ok`: consume a token of the given type or fail with the
given message at the current token. -/
def nextOk (tt : TokenType) (msg : String) (ts : List Token) :
    Except ParseErr (Token × List Token) :=
  match nextIf tt ts with
  | (some t, ts') => .ok (t, ts')
  | (none, _) => .error (parserError ts msg)

mutual

/-- `Parser::expression`: delegates to `equality`. Fuel is an embedding
artifact for termination only; `parseTokens` supplies enough. -/
def pExpression : Nat → List Token → Except ParseErr (AstNode × List Token)
  | 0, _ => .error (.panicked "fuel exhausted")
  | fuel + 1, ts => pEquality fuel ts

/-- `Parser::equality`: `comparison ( ("!=" | "==") comparison )*`. -/
def pEquality : Nat → List Token → Except ParseErr (AstNode × List Token)
  | 0, _ => .error (.panicked "fuel exhausted")
  | fuel + 1, ts =>
    match pComparison fuel ts with
    | .ok (e, ts') => pEqualityLoop fuel e ts'
    | .error err => .error err

/-- The left-folding `while` loop of `Parser::equality`. -/
def pEqualityLoop : Nat → AstNode → List Token →
    Except ParseErr (AstNode × List Token)
  | 0, _, _ => .error (.panicked "fuel exhausted")
  | fuel + 1, e, ts =>
    match nextMatch [.bangEqual, .equalEqual] ts with
    | (some op, ts') =>
      match pComparison fuel ts' with
      | .ok (r, ts'') => pEqualityLoop fuel (.binary e op r) ts''
      | .error err => .error err
    | (none, _) => .ok (e, ts)

/-- `Parser::comparison`: `term ( (">" | ">=" | "<" | "<=") term )*`. -/
def pComparison : Nat → List Token → Except ParseErr (AstNode × List Token)
  | 0, _ => .error (.panicked "fuel exhausted")
  | fuel + 1, ts =>
    match pTerm fuel ts with
    | .ok (e, ts') => pComparisonLoop fuel e ts'
    | .error err => .error err

/-- The left-folding `while` loop of `Parser::comparison`. -/
def pComparisonLoop : Nat → AstNode → List Token →
    Except ParseErr (AstNode × List Token)
  | 0, _, _ => .error (.panicked "fuel exhausted")
  | fuel + 1, e, ts =>
    match nextMatch [.greater, .greaterEqual, .less, .lessEqual] ts with
    | (some op, ts') =>
      match pTerm fuel ts' with
      | .ok (r, ts'') => pComparisonLoop fuel (.binary e op r) ts''
      | .error err => .error err
    | (none, _) => .ok (e, ts)

/-- `Parser::term`: `factor ( ("-" | "+") factor )*`. -/
def pTerm : Nat → List Token → Except ParseErr (AstNode × List Token)
  | 0, _ => .error (.panicked "fuel exhausted")
  | fuel + 1, ts =>
    match pFactor fuel ts with
    | .ok (e, ts') => pTermLoop fuel e ts'
    | .error err => .error err

/-- The left-folding `while` loop of `Parser::term`. -/
def pTermLoop : Nat → AstNode → List Token →
    Except ParseErr (AstNode × List Token)
  | 0, _, _ => .error (.panicked "fuel exhausted")
  | fuel + 1, e, ts =>
    match nextMatch [.minus, .plus] ts with
    | (some op, ts') =>
      match pFactor fuel ts' with
      | .ok (r, ts'') => pTermLoop fuel (.binary e op r) ts''
      | .error err => .error err
    | (none, _) => .ok (e, ts)

/-- `Parser::factor`: `unary ( ("/" | "*") unary )*`. -/
def pFactor : Nat → List Token → Except ParseErr (AstNode × List Token)
  | 0, _ => .error (.panicked "fuel exhausted")
  | fuel + 1, ts =>
    match pUnary fuel ts with
    | .ok (e, ts') => pFactorLoop fuel e ts'
    | .error err => .error err

/-- The left-folding `while` loop of `Parser::factor`. -/
def pFactorLoop : Nat → AstNode → List Token →
    Except ParseErr (AstNode × List Token)
  | 0, _, _ => .error (.panicked "fuel exhausted")
  | fuel + 1, e, ts =>
    match nextMatch [.slash, .star] ts with
    | (some op, ts') =>
      match pUnary fuel ts' with
      | .ok (r, ts'') => pFactorLoop fuel (.binary e op r) ts''
      | .error err => .error err
    | (none, _) => .ok (e, ts)

/-- `Parser::unary`: `("!" | "-") unary | primary`. -/
def pUnary : Nat → List Token → Except ParseErr (AstNode × List Token)
  | 0, _ => .error (.panicked "fuel exhausted")
  | fuel + 1, ts =>
    match nextMatch [.bang, .minus] ts with
    | (some op, ts') =>
      match pUnary fuel ts' with
      | .ok (r, ts'') => .ok (.unary op r, ts'')
      | .error err => .error err
    | (none, _) => pPrimary fuel ts

/-- `Parser::primary`: literals, `true`/`false`/`nil`, and parenthesised
expressions; the alternatives are tried in the Rust order, and failure of
all of them reports "Expect expression" at the current token. -/
def pPrimary : Nat → List Token → Except ParseErr (AstNode × List Token)
  | 0, _ => .error (.panicked "fuel exhausted")
  | fuel + 1, ts =>
    match nextIf .kwTrue ts with
    | (some _, ts') => .ok (.literal (.boolean true), ts')
    | (none, _) =>
      match nextIf .kwFalse ts with
      | (some _, ts') => .ok (.literal (.boolean false), ts')
      | (none, _) =>
        match nextIf .kwNil ts with
        | (some _, ts') => .ok (.literal .nil, ts')
        | (none, _) =>
          match nextMatch [.number, .string] ts with
          | (some t, ts') =>
            match t.literal with
            | some (.number n) => .ok (.literal (.number n), ts')
            | some (.str s) => .ok (.literal (.string s), ts')
            | none => .error (.panicked "literal value for token")
          | (none, _) =>
            match nextIf .leftParen ts with
            | (some _, ts') =>
              match pExpression fuel ts' with
              | .ok (e, ts'') =>
                match nextOk .rightParen "Expect ')' after expression" ts'' with
                | .ok (_, ts3) => .ok (.grouping e, ts3)
                | .error err => .error err
              | .error err => .error err
            | (none, _) => .error (parserError ts "Expect expression")

end

/-- Fuel that always suffices for `pExpression` on `ts`: along any call
path, at most ten nested calls separate two consumptions of a token. -/
def parseFuel (ts : List Token) : Nat := 10 * ts.length + 10

/-- `Parser::parse`: runs `expression` and discards the remaining tokens
without checking that the input was exhausted. -/
def parseTokens (ts : List Token) : Except ParseErr AstNode :=
  match pExpression (parseFuel ts) ts with
  | .ok (e, _) => .ok e
  | .error err => .error err

/-- A runtime failure: a `RuntimeError` (from `interpreter/error.rs`) tied
to the offending token, or a panic marker for the `todo!`/`panic!` arms of
the evaluator. -/
inductive Failure where
  | runtime (t : Token) (msg : String)
  | panicked (msg : String)
deriving DecidableEq

/-- `check_number_operands` from `interpreter/mod.rs`: both operands must be
numbers, else the "Operands must be numbers." runtime error at the
operator's token. -/
def checkNumberOperands (l r : Value) (op : Token) :
    Except Failure (ℚ × ℚ) :=
  match l, r with
  | .number a, .number b => .ok (a, b)
  | _, _ => .error (.runtime op "Operands must be numbers.")

/-- The evaluator (`impl Visitor for Interpreter` in `interpreter/mod.rs`):
a depth-first post-order walk producing a `Value` or the first `Failure`.
The `todo!` arm for `+` on mismatched operand types and the unreachable
operator arms are embedded as panics, as in the Rust code. -/
def evaluate : AstNode → Except Failure Value
  | .literal v => .ok v
  | .grouping e => evaluate e
  | .unary op right =>
    match evaluate right with
    | .error e => .error e
    | .ok r =>
      match op.typ with
      | .bang => .ok (.boolean (!r.isTruthy))
      | .minus =>
        match r with
        | .number n => .ok (.number (-n))
        | _ => .error (.runtime op "Operand must be a number.")
      | _ => .error (.panicked "Unexpected token type for unary expression")
  | .binary left op right =>
    match evaluate left with
    | .error e => .error e
    | .ok lv =>
      match evaluate right with
      | .error e => .error e
      | .ok rv =>
        match op.typ with
        | .bangEqual => .ok (.boolean (!(decide (lv = rv))))
        | .equalEqual => .ok (.boolean (decide (lv = rv)))
        | .minus =>
          match checkNumberOperands lv rv op with
          | .ok (a, b) => .ok (.number (a - b))
          | .error e => .error e
        | .star =>
          match checkNumberOperands lv rv op with
          | .ok (a, b) => .ok (.number (a * b))
          | .error e => .error e
        | .slash =>
          match checkNumberOperands lv rv op with
          | .ok (a, b) =>
            if b = 0 then .error (.runtime op "Division by 0")
            else .ok (.number (a / b))
          | .error e => .error e
        | .greater =>
          match checkNumberOperands lv rv op with
          | .ok (a, b) => .ok (.boolean (decide (a > b)))
          | .error e => .error e
        | .greaterEqual =>
          match checkNumberOperands lv rv op with
          | .ok (a, b) => .ok (.boolean (decide (a ≥ b)))
          | .error e => .error e
        | .less =>
          match checkNumberOperands lv rv op with
          | .ok (a, b) => .ok (.boolean (decide (a < b)))
          | .error e => .error e
        | .lessEqual =>
          match checkNumberOperands lv rv op with
          | .ok (a, b) => .ok (.boolean (decide (a ≤ b)))
          | .error e => .error e
        | .plus =>
          match lv, rv with
          | .number a, .number b => .ok (.number (a + b))
          | .string a, .string b => .ok (.string (a ++ b))
          | _, _ => .error (.panicked "not yet implemented")
        | _ => .error (.panicked "Unexpected token type for binary expression")

/-- End-to-end pipeline on a source text: scan, filter to tokens, parse,
evaluate; `none` when the parse failed (the stages `main.rs` wires up). -/
def runSource (s : String) : Option (Except Failure Value) :=
  match parseTokens (okTokens s) with
  | .ok e => some (evaluate e)
  | .error _ => none

/-- A schematic number token (payload-generic test input for parser
properties; the parser never inspects lexeme or line). -/
def numberToken (q : ℚ) : Token :=
  { typ := .number, lexeme := "num", literal := some (.number q), line := 1 }

/-- No item of the scan records a panic (the Rust process did not abort). -/
def noPanics (items : List ScanItem) : Prop :=
  ∀ i ∈ items, i.isPanicked = false

/-- The item sequence consists of a prefix free of end-marker tokens
followed by exactly one end-marker, which is its last item. -/
def endsWithEof (items : List ScanItem) : Prop :=
  ∃ pre line, items = pre ++ [.tok (Token.newEof line)] ∧
    ∀ i ∈ pre, i.isEof = false


/-- Whether a step result emits an end-marker item (used to state that no
dispatch branch of the scanner ever does). -/
def StepRes.emittedIsEof : StepRes → Bool
  | .emit item _ _ => item.isEof
  | _ => false

theorem lookup_getD_ne_eof (l : List (String × TokenType)) (s : String)
    (h : ∀ p ∈ l, p.2 ≠ TokenType.eof) :
    ((l.lookup s).getD .identifier) ≠ TokenType.eof := by
  induction l with
  | nil => simp [List.lookup]
  | cons p l ih =>
    rw [List.lookup]
    rcases p with ⟨k, v⟩
    by_cases hk : s == k
    · simp only [hk, Option.getD_some]
      exact h ⟨k, v⟩ (List.mem_cons_self _ _)
    · simp only [Bool.not_eq_true] at hk
      simp only [hk]
      exact ih fun q hq => h q (List.mem_cons_of_mem _ hq)

theorem keywordTypeFor_ne_eof (s : String) : keywordTypeFor s ≠ TokenType.eof := by
  unfold keywordTypeFor
  exact lookup_getD_ne_eof _ _ (by decide)

theorem scanNumber_fst_isEof (lead : Char) (cs : List Char) (line : Nat) :
    (scanNumber lead cs line).1.isEof = false := by
  simp only [scanNumber]
  split <;> simp [ScanItem.isEof]

theorem scanString_fst_isEof (cs : List Char) (line : Nat) :
    (scanString cs line).1.isEof = false := by
  simp only [scanString]
  cases hr : List.dropWhile (fun x => x != '"') cs <;> simp [hr, ScanItem.isEof]

theorem scanIdentifier_fst_isEof (lead : Char) (cs : List Char) (line : Nat) :
    (scanIdentifier lead cs line).1.isEof = false := by
  simp only [scanIdentifier, ScanItem.isEof]
  exact beq_eq_false_iff_ne.2 (keywordTypeFor_ne_eof _)


theorem scanStep_emittedIsEof (c : Char) (cs : List Char) (line : Nat) :
    (scanStep c cs line).emittedIsEof = false := by
  unfold scanStep
  simp only [apply_ite StepRes.emittedIsEof]
  simp [StepRes.emittedIsEof, ScanItem.isEof, mkToken, scanString_fst_isEof,
    scanNumber_fst_isEof, scanIdentifier_fst_isEof]
  intros
  split_ifs
  · simpa [ScanItem.isEof] using scanString_fst_isEof cs line
  · intro _
    simpa [ScanItem.isEof] using scanNumber_fst_isEof c cs line
  · intro _
    simpa [ScanItem.isEof] using scanIdentifier_fst_isEof c cs line

theorem endsWithEof_cons (i : ScanItem) (l : List ScanItem)
    (hi : i.isEof = false) (h : endsWithEof l) : endsWithEof (i :: l) := by
  obtain ⟨pre, line, rfl, hpre⟩ := h
  refine ⟨i :: pre, line, rfl, ?_⟩
  intro j hj
  rcases List.mem_cons.1 hj with hj | hj
  · exact hj ▸ hi
  · exact hpre j hj

theorem scanShape_cons (i : ScanItem) (l : List ScanItem) (hi : i.isEof = false)
    (h : endsWithEof l ∨ ∃ pre m, l = pre ++ [ScanItem.panicked m]) :
    endsWithEof (i :: l) ∨ ∃ pre m, i :: l = pre ++ [ScanItem.panicked m] := by
  rcases h with h | ⟨pre, m, rfl⟩
  · exact Or.inl (endsWithEof_cons i l hi h)
  · exact Or.inr ⟨i :: pre, m, rfl⟩

theorem scanChars_shape (fuel : Nat) :
    ∀ (cs : List Char) (line : Nat),
      endsWithEof (scanChars fuel cs line) ∨
        ∃ pre m, scanChars fuel cs line = pre ++ [ScanItem.panicked m] := by
  induction fuel with
  | zero => exact fun cs line => Or.inr ⟨[], _, rfl⟩
  | succ fuel ih =>
    intro cs line
    cases cs with
    | nil => exact Or.inl ⟨[], line, rfl, by simp⟩
    | cons c cs' =>
      rw [scanChars.eq_def]
      dsimp only
      cases hstep : scanStep c cs' line with
      | emit item rest line' =>
        have hi : item.isEof = false := by
          have h0 := scanStep_emittedIsEof c cs' line
          rw [hstep] at h0
          simpa [StepRes.emittedIsEof] using h0
        exact scanShape_cons _ _ hi (ih _ _)
      | skip rest line' => exact ih _ _
      | abort m => exact Or.inr ⟨[], m, rfl⟩

theorem noPanics_endsWithEof (fuel : Nat) (cs : List Char) (line : Nat)
    (h : noPanics (scanChars fuel cs line)) :
    endsWithEof (scanChars fuel cs line) := by
  rcases scanChars_shape fuel cs line with hs | ⟨pre, m, hs⟩
  · exact hs
  · have hm := h (ScanItem.panicked m)
      (hs ▸ List.mem_append_right pre (List.mem_singleton_self _))
    simp [ScanItem.isPanicked] at hm

/-- C1: for a binary `+` whose evaluated operands are not both Numbers and
not both Strings, the evaluator does NOT fail with a RuntimeError: it hits
the `todo!()` arm and panics (aborting the process), while Number+Number
yields the sum and String+String the concatenation. The first and second
conjuncts evaluate the code at the failing input `1 + "foo"`. -/
theorem plusMismatchedOperandsPanic :
    evaluate (.binary (.literal (.number 1)) (mkToken .plus "+" 1)
        (.literal (.string "foo"))) = .error (.panicked "not yet implemented")
    ∧ (∀ (t : Token) (m : String),
        evaluate (.binary (.literal (.number 1)) (mkToken .plus "+" 1)
          (.literal (.string "foo"))) ≠ .error (.runtime t m))
    ∧ (∀ a b : ℚ,
        evaluate (.binary (.literal (.number a)) (mkToken .plus "+" 1)
          (.literal (.number b))) = .ok (.number (a + b)))
    ∧ (∀ s t : String,
        evaluate (.binary (.literal (.string s)) (mkToken .plus "+" 1)
          (.literal (.string t))) = .ok (.string (s ++ t)))
    ∧ runSource "1 + \"foo\"" = some (.error (.panicked "not yet implemented")) :=
  ⟨rfl,
   fun t m h => Failure.noConfusion (Except.error.inj h),
   fun a b => rfl,
   fun s t => rfl,
   by decide⟩

/-- C2 counterexample: the final-output rendering (`Display for Value`,
used by `Interpreter::interpret`) renders the integral Number 4 as "4",
not as "4.0" — the trailing-".0" rule the claim states does not hold for
final output. -/
theorem displayIntegerNoTrailingZero :
    Value.display (Value.number 4) = "4" ∧
    Value.display (Value.number 4) ≠ "4.0" := by
  constructor
  · decide
  · decide

/-- C2 amended: in the final-output rendering an integral Number renders as
a bare integer with no trailing ".0" (the trailing-".0" formatting belongs
to the token-literal `Display` in `scanner/token.rs`, used by tokenize
output); a String renders as its raw text, Booleans as "true"/"false" and
Nil as "nil". -/
theorem displayRendering :
    (∀ q : ℚ, q.den = 1 → Value.display (.number q) = intDecimal q.num)
    ∧ (∀ q : ℚ, q.den = 1 →
        TokLiteral.display (.number q) = intDecimal q.num ++ ".0")
    ∧ (∀ s : String, Value.display (.string s) = s)
    ∧ Value.display (.boolean true) = "true"
    ∧ Value.display (.boolean false) = "false"
    ∧ Value.display .nil = "nil" := by
  refine ⟨?_, ?_, fun s => rfl, rfl, rfl, rfl⟩
  · intro q hq
    simp [Value.display, ratDisplay, hq]
  · intro q hq
    simp [TokLiteral.display, hq]

/-- Witness for the amended C2 rendering at the concrete value 4. -/
theorem displayRendering_witness :
    (4 : ℚ).den = 1 ∧
    Value.display (Value.number 4) = intDecimal (4 : ℚ).num ∧
    TokLiteral.display (TokLiteral.number 4) = intDecimal (4 : ℚ).num ++ ".0" :=
  ⟨by decide, displayRendering.1 4 (by decide), displayRendering.2.1 4 (by decide)⟩

/-- C3: `/` on two Numbers fails with the dedicated "Division by 0" error —
distinct from the generic "Operands must be numbers." — exactly when the
right operand is zero, and otherwise yields the exact quotient; on the
boundary examples, `62 / 5` yields 12.4, `7 * 4 / 7 / 1` yields 4, and
`1 / 0` raises the division error end to end. -/
theorem slashDivisionByZeroRejected :
    (∀ a b : ℚ,
        evaluate (.binary (.literal (.number a)) (mkToken .slash "/" 1)
            (.literal (.number b)))
          = if b = 0 then .error (.runtime (mkToken .slash "/" 1) "Division by 0")
            else .ok (.number (a / b)))
    ∧ "Division by 0" ≠ "Operands must be numbers."
    ∧ runSource "62 / 5" = some (.ok (.number 12.4))
    ∧ runSource "7 * 4 / 7 / 1" = some (.ok (.number 4))
    ∧ runSource "1 / 0"
        = some (.error (.runtime (mkToken .slash "/" 1) "Division by 0")) := by
  refine ⟨fun a b => rfl, by decide, ?_, ?_, by decide⟩
  · have h : ((62 : ℚ) / 5) = 12.4 := by norm_num
    calc runSource "62 / 5" = some (.ok (.number ((62 : ℚ) / 5))) := by rfl
      _ = some (.ok (.number 12.4)) := by rw [h]
  · have h : ((7 * 4 : ℚ) / 7 / 1) = 4 := by norm_num
    calc runSource "7 * 4 / 7 / 1"
        = some (.ok (.number ((7 * 4 : ℚ) / 7 / 1))) := by rfl
      _ = some (.ok (.number 4)) := by rw [h]

/-- C9: `==` and `!=` on any two literal Values always succeed with the
structural-equality verdict, cross-variant comparisons are unequal rather
than an error, and a concrete cross-variant comparison (`1 == "1"`) runs
end to end to Boolean false. -/
theorem equalityStructuralNeverErrors :
    (∀ l r : Value,
        evaluate (.binary (.literal l) (mkToken .equalEqual "==" 1)
            (.literal r)) = .ok (.boolean (decide (l = r)))
        ∧ evaluate (.binary (.literal l) (mkToken .bangEqual "!=" 1)
            (.literal r)) = .ok (.boolean (!decide (l = r))))
    ∧ (∀ (n : ℚ) (s : String) (b : Bool),
        Value.number n ≠ Value.string s ∧ Value.number n ≠ Value.boolean b ∧
        Value.number n ≠ Value.nil ∧ Value.string s ≠ Value.boolean b ∧
        Value.string s ≠ Value.nil ∧ Value.boolean b ≠ Value.nil)
    ∧ runSource "1 == \"1\"" = some (.ok (.boolean false)) := by
  refine ⟨fun l r => ⟨rfl, rfl⟩, ?_, by decide⟩
  intro n s b
  refine ⟨?_, ?_, ?_, ?_, ?_, ?_⟩ <;> simp

/-- C4: the number lexer, on a fractional part, consumes ASCII
alphanumerics rather than digits only: on `1.2a` it builds the lexeme
"1.2a" whose float parse fails, so the scan panics and aborts (first
conjunct evaluates the code at the failing input); `7.` still lexes as
NUMBER 7 followed by DOT as the claim states, but `1.5e3` becomes a single
NUMBER token with a letter inside its lexeme, against the
digits-dot-digits shape the claim asserts. -/
theorem numberLexAlnumFractionPanics :
    scanTokens "1.2a" = [.panicked "Expected a valid double-precision float"]
    ∧ scanTokens "7."
        = [.tok { typ := .number, lexeme := "7", literal := some (.number 7),
                  line := 1 },
           .tok (mkToken .dot "." 1), .tok (Token.newEof 1)]
    ∧ scanTokens "1.5e3"
        = [.tok { typ := .number, lexeme := "1.5e3",
                  literal := some (.number 1500), line := 1 },
           .tok (Token.newEof 1)] := by
  refine ⟨by decide, by decide, ?_⟩
  have h : ((15 : ℚ) * 10 ^ 3 / 10 ^ 1) = 1500 := by norm_num
  calc scanTokens "1.5e3"
      = [.tok { typ := .number, lexeme := "1.5e3",
                literal := some (.number ((15 : ℚ) * 10 ^ 3 / 10 ^ 1)),
                line := 1 },
         .tok (Token.newEof 1)] := by rfl
    _ = [.tok { typ := .number, lexeme := "1.5e3",
                literal := some (.number 1500), line := 1 },
         .tok (Token.newEof 1)] := by rw [h]

/-- C5: the parser realises the precedence tiers with left folding:
`66 - 25 * 66 - 65` parses to `(- (- 66 (* 25 66)) 65)`, and schematically
`a - b - c` folds to the left while `a - b * c` binds the factor tighter,
for arbitrary number payloads. -/
theorem precedenceLeftAssociative :
    parseTokens (okTokens "66 - 25 * 66 - 65")
      = .ok (.binary (.binary (.literal (.number 66)) (mkToken .minus "-" 1)
              (.binary (.literal (.number 25)) (mkToken .star "*" 1)
                (.literal (.number 66))))
            (mkToken .minus "-" 1) (.literal (.number 65)))
    ∧ (∀ a b c : ℚ,
        parseTokens [numberToken a, mkToken .minus "-" 1, numberToken b,
            mkToken .minus "-" 1, numberToken c, Token.newEof 1]
          = .ok (.binary (.binary (.literal (.number a)) (mkToken .minus "-" 1)
                  (.literal (.number b))) (mkToken .minus "-" 1)
                (.literal (.number c))))
    ∧ (∀ a b c : ℚ,
        parseTokens [numberToken a, mkToken .minus "-" 1, numberToken b,
            mkToken .star "*" 1, numberToken c, Token.newEof 1]
          = .ok (.binary (.literal (.number a)) (mkToken .minus "-" 1)
              (.binary (.literal (.number b)) (mkToken .star "*" 1)
                (.literal (.number c))))) :=
  ⟨by decide, fun a b c => rfl, fun a b c => rfl⟩

/-- C10 counterexample: the token list `1 + EOF` has the complete
expression `1` as its leading tokens, yet `parse` does not return the tree
for that prefix — it greedily consumes the trailing `+` and fails with
"Expect expression at end". -/
theorem parseFailsOnTrailingOperator :
    parseTokens [numberToken 1, mkToken .plus "+" 1, Token.newEof 1]
      = .error (.report { line := 1, location := some " at end",
                          message := "Expect expression" })
    ∧ parseTokens [numberToken 1, mkToken .plus "+" 1, Token.newEof 1]
        ≠ .ok (.literal (.number 1)) :=
  ⟨by decide, by decide⟩

/-- C10 amended: `parse` never checks that the token list was exhausted —
whenever the greedy `expression` routine succeeds on a prefix, `parse`
returns that tree and silently ignores whatever tokens remain (so "1 2"
parses to the literal 1 with no error about the trailing token) — but a
remaining token that extends the expression (such as a trailing operator)
is consumed by the greedy parse and can turn it into a failure. -/
theorem parseIgnoresRemainingTokens :
    (∀ (ts : List Token) (e : AstNode) (rest : List Token),
        pExpression (parseFuel ts) ts = .ok (e, rest) →
          parseTokens ts = .ok e)
    ∧ parseTokens (okTokens "1 2") = .ok (.literal (.number 1))
    ∧ parseTokens (okTokens "1") = .ok (.literal (.number 1)) := by
  refine ⟨?_, by decide, by decide⟩
  intro ts e rest h
  simp [parseTokens, h]

/-- Witness for the amended C10 at the token list of "1 2": `expression`
succeeds leaving the trailing NUMBER 2 unconsumed, and `parse` returns the
literal 1. -/
theorem parseIgnoresRemainingTokens_witness :
    pExpression (parseFuel (okTokens "1 2")) (okTokens "1 2")
      = .ok (.literal (.number 1),
          [{ typ := .number, lexeme := "2", literal := some (.number 2),
             line := 1 },
           Token.newEof 1])
    ∧ parseTokens (okTokens "1 2") = .ok (.literal (.number 1)) :=
  ⟨by decide,
   parseIgnoresRemainingTokens.1 (okTokens "1 2") (.literal (.number 1))
     [{ typ := .number, lexeme := "2", literal := some (.number 2), line := 1 },
      Token.newEof 1] (by decide)⟩

/-- C8 counterexample: the two `primary` error messages carry no trailing
period — a missing `)` reports "Expect ')' after expression" (not
"Expect ')' after expression.") and a failed `primary` reports
"Expect expression" (not "Expect expression."). -/
theorem parserErrorMessagesLackPeriod :
    parseTokens (okTokens "(1")
      = .error (.report { line := 1, location := some " at end",
                          message := "Expect ')' after expression" })
    ∧ "Expect ')' after expression" ≠ "Expect ')' after expression."
    ∧ parseTokens (okTokens "+")
        = .error (.report { line := 1, location := some " at '+'",
                            message := "Expect expression" })
    ∧ "Expect expression" ≠ "Expect expression." :=
  ⟨by decide, by decide, by decide, by decide⟩

/-- C8 amended: after `(` the parser requires a nested expression and a
`)`, else fails with "Expect ')' after expression" (no trailing period);
when no `primary` alternative matches it fails with "Expect expression"
(no trailing period); either report carries the current token's line and
the annotation " at end" when that token is the end-marker, and
" at '<lexeme>'" otherwise. -/
theorem parenAndPrimaryErrorReporting :
    (∀ (t : Token) (msg : String), t.typ = .eof →
        Report.errorAtToken t msg
          = { line := t.line, location := some " at end", message := msg })
    ∧ (∀ (t : Token) (msg : String), t.typ ≠ .eof →
        Report.errorAtToken t msg
          = { line := t.line, location := some (" at '" ++ t.lexeme ++ "'"),
              message := msg })
    ∧ parseTokens (okTokens "(1")
        = .error (.report { line := 1, location := some " at end",
                            message := "Expect ')' after expression" })
    ∧ parseTokens (okTokens "(1 9")
        = .error (.report { line := 1, location := some " at '9'",
                            message := "Expect ')' after expression" })
    ∧ parseTokens (okTokens "+")
        = .error (.report { line := 1, location := some " at '+'",
                            message := "Expect expression" })
    ∧ parseTokens (okTokens "")
        = .error (.report { line := 1, location := some " at end",
                            message := "Expect expression" }) := by
  refine ⟨?_, ?_, by decide, by decide, by decide, by decide⟩
  · intro t msg ht
    simp [Report.errorAtToken, ht]
  · intro t msg ht
    simp [Report.errorAtToken, ht]

/-- Witness for the amended C8 location rule at an end-marker token and at
an ordinary token. -/
theorem parenAndPrimaryErrorReporting_witness :
    (Token.newEof 3).typ = TokenType.eof
    ∧ Report.errorAtToken (Token.newEof 3) "Expect expression"
        = { line := 3, location := some " at end",
            message := "Expect expression" }
    ∧ (mkToken .plus "+" 2).typ ≠ TokenType.eof
    ∧ Report.errorAtToken (mkToken .plus "+" 2) "Expect expression"
        = { line := 2, location := some " at '+'",
            message := "Expect expression" } :=
  ⟨by decide, parenAndPrimaryErrorReporting.1 _ _ (by decide), by decide,
   parenAndPrimaryErrorReporting.2.1 _ _ (by decide)⟩

theorem takeWhile_append_stop (p : Char → Bool) (l r : List Char) (x : Char)
    (hl : ∀ c ∈ l, p c = true) (hx : p x = false) :
    (l ++ x :: r).takeWhile p = l := by
  induction l with
  | nil => simp [List.takeWhile, hx]
  | cons a l ih =>
    have ha := hl a (List.mem_cons_self _ _)
    simp only [List.cons_append, List.takeWhile_cons, ha, if_true]
    rw [ih fun c hc => hl c (List.mem_cons_of_mem _ hc)]

theorem dropWhile_append_stop (p : Char → Bool) (l r : List Char) (x : Char)
    (hl : ∀ c ∈ l, p c = true) (hx : p x = false) :
    (l ++ x :: r).dropWhile p = x :: r := by
  induction l with
  | nil => simp [List.dropWhile, hx]
  | cons a l ih =>
    have ha := hl a (List.mem_cons_self _ _)
    simp only [List.cons_append, List.dropWhile_cons, ha, if_true]
    exact ih fun c hc => hl c (List.mem_cons_of_mem _ hc)

/-- C7: a string opened by `"` and never closed yields the
"Unterminated string." error at the line where scanning stopped (the
opening line plus the embedded newlines) and no token, and the scan still
reaches the end-marker; a terminated string's literal is exactly the text
between the quotes, newlines preserved in the lexeme; the boundary input
`"hello" , "unterminated` produces the STRING and COMMA tokens, the error
at line 1, then the end-marker. -/
theorem unterminatedStringHandling :
    (∀ (cs : List Char) (line : Nat), (∀ c ∈ cs, c ≠ '"') →
        scanString cs line
          = (.err (Report.atLine (line + cs.count '\n') "Unterminated string."),
             [], line + cs.count '\n'))
    ∧ (∀ (body rest : List Char) (line : Nat), (∀ c ∈ body, c ≠ '"') →
        scanString (body ++ '"' :: rest) line
          = (.tok { typ := .string, lexeme := String.mk ('"' :: body ++ ['"']),
                    literal := some (.str (String.mk body)),
                    line := line + body.count '\n' },
             rest, line + body.count '\n'))
    ∧ scanTokens "\"hello\" , \"unterminated"
        = [.tok { typ := .string, lexeme := "\"hello\"",
                  literal := some (.str "hello"), line := 1 },
           .tok (mkToken .comma "," 1),
           .err (Report.atLine 1 "Unterminated string."),
           .tok (Token.newEof 1)] := by
  refine ⟨?_, ?_, by decide⟩
  · intro cs line h
    have ht : cs.takeWhile (· != '"') = cs :=
      List.takeWhile_eq_self_iff.mpr fun c hc => by simpa using h c hc
    have hd : cs.dropWhile (· != '"') = [] :=
      List.dropWhile_eq_nil_iff.mpr fun c hc => by simpa using h c hc
    simp [scanString, ht, hd]
  · intro body rest line h
    have ht : (body ++ '"' :: rest).takeWhile (· != '"') = body :=
      takeWhile_append_stop _ _ _ _ (fun c hc => by simpa using h c hc)
        (by simp)
    have hd : (body ++ '"' :: rest).dropWhile (· != '"') = '"' :: rest :=
      dropWhile_append_stop _ _ _ _ (fun c hc => by simpa using h c hc)
        (by simp)
    simp [scanString, ht, hd]

/-- Witness for C7 at concrete inputs: the unterminated tail "abc" (error
at line 1, no token) and the terminated body "hi" (the literal is the text
between the quotes). -/
theorem unterminatedStringHandling_witness :
    (∀ c ∈ ("abc".toList), c ≠ '"')
    ∧ scanString ("abc".toList) 1
        = (.err (Report.atLine 1 "Unterminated string."), [], 1)
    ∧ scanString ("hi".toList ++ '"' :: []) 1
        = (.tok { typ := .string, lexeme := "\"hi\"",
                  literal := some (.str "hi"), line := 1 },
           [], 1) := by
  refine ⟨by decide, ?_, ?_⟩
  · have h := unterminatedStringHandling.1 ("abc".toList) 1 (by decide)
    simpa using h
  · have h := unterminatedStringHandling.2.1 ("hi".toList) [] 1 (by decide)
    simpa using h

/-- C6: for every input whose scan does not panic (see the number-lexer
defect of C4), the item sequence is a prefix containing no end-marker
followed by exactly one end-marker token as its last item — regardless of
how many lexical errors occurred; on the panicking input "1.2a" the
sequence contains no end-marker at all, violating the claim as stated for
every input. -/
theorem scanEndsWithSingleEof :
    (∀ s : String, noPanics (scanTokens s) → endsWithEof (scanTokens s))
    ∧ (∀ i ∈ scanTokens "1.2a", i.isEof = false) := by
  refine ⟨?_, by decide⟩
  intro s h
  exact noPanics_endsWithEof _ _ _ h

/-- Witness for C6 on an input full of lexical errors: the scan of "@ %"
panics nowhere and still ends in exactly one end-marker. -/
theorem scanEndsWithSingleEof_witness :
    noPanics (scanTokens "@ %") ∧ endsWithEof (scanTokens "@ %") :=
  ⟨by unfold noPanics; decide, scanEndsWithSingleEof.1 "@ %" (by unfold noPanics; decide)⟩
